import Mathlib

/-!
Verification of the fixed-window rate limiter from the Eaglepoint task-2
server (`rateLimiter.js` and `server.js`).

The `RateLimiter` class is embedded shallowly: the JS `Map<userId,
{count, resetTime}>` becomes an association list with first-match lookup
(JS `Map.get`), in-place update (`Map.set` on an existing key keeps its
slot, otherwise appends), and `Map.delete` / iteration-with-delete as
filters.  `Date.now()` becomes an explicit `now : Nat` argument
(milliseconds).  JS number subtraction on `remaining` is `Int`
subtraction, so a negative value is representable exactly as in JS.
Methods that mutate the map return the new `RateLimiter` state; a method
that does not mutate returns the state unchanged, mirroring the absence
of any `set`/`delete` call in its body.
-/

namespace EaglepointRL

/-- One entry of `this.userRequests`: `{count: number, resetTime: number}`. -/
structure UserData where
  count : Nat
  resetTime : Nat
deriving DecidableEq, Repr

/-- The `RateLimiter` instance: configuration plus the `userRequests` map,
modelled as an insertion-ordered association list. -/
structure RateLimiter where
  maxRequests : Nat
  windowMs : Nat
  userRequests : List (String × UserData)
deriving DecidableEq, Repr

/-- Result object of `checkLimit`: `{allowed, remaining, resetTime}`. -/
structure CheckResult where
  allowed : Bool
  remaining : Int
  resetTime : Nat
deriving DecidableEq, Repr

/-- Result object of `getStatus`: `{remaining, resetTime}`. -/
structure Status where
  remaining : Int
  resetTime : Nat
deriving DecidableEq, Repr

/-- JS `Map.get`: first entry with this key, if any. -/
def mapGet (m : List (String × UserData)) (k : String) : Option UserData :=
  (m.find? (fun p => p.1 == k)).map (fun p => p.2)

/-- JS `Map.set`: overwrite the existing entry in place, else append. -/
def mapSet (m : List (String × UserData)) (k : String) (v : UserData) :
    List (String × UserData) :=
  if m.any (fun p => p.1 == k) then
    m.map (fun p => if p.1 == k then (k, v) else p)
  else
    m ++ [(k, v)]

/-- JS `Map.delete`: drop the entry with this key. -/
def mapDelete (m : List (String × UserData)) (k : String) :
    List (String × UserData) :=
  m.filter (fun p => p.1 != k)

/-- `RateLimiter.checkLimit(userId)` at instant `now`: the admission
decision plus the updated limiter state. -/
def checkLimit (rl : RateLimiter) (userId : String) (now : Nat) :
    CheckResult × RateLimiter :=
  match mapGet rl.userRequests userId with
  | none =>
    let resetTime := now + rl.windowMs
    (⟨true, (rl.maxRequests : Int) - 1, resetTime⟩,
     { rl with userRequests := mapSet rl.userRequests userId ⟨1, resetTime⟩ })
  | some userData =>
    if now ≥ userData.resetTime then
      let resetTime := now + rl.windowMs
      (⟨true, (rl.maxRequests : Int) - 1, resetTime⟩,
       { rl with userRequests := mapSet rl.userRequests userId ⟨1, resetTime⟩ })
    else if userData.count < rl.maxRequests then
      let newData : UserData := ⟨userData.count + 1, userData.resetTime⟩
      (⟨true, (rl.maxRequests : Int) - (userData.count + 1), userData.resetTime⟩,
       { rl with userRequests := mapSet rl.userRequests userId newData })
    else
      (⟨false, 0, userData.resetTime⟩, rl)

/-- `RateLimiter.getStatus(userId)` at instant `now`.  The method body
performs no `set`/`delete`, so the returned state is the input state. -/
def getStatus (rl : RateLimiter) (userId : String) (now : Nat) :
    Status × RateLimiter :=
  match mapGet rl.userRequests userId with
  | none => (⟨(rl.maxRequests : Int), now + rl.windowMs⟩, rl)
  | some userData =>
    if now ≥ userData.resetTime then
      (⟨(rl.maxRequests : Int), now + rl.windowMs⟩, rl)
    else
      (⟨(rl.maxRequests : Int) - userData.count, userData.resetTime⟩, rl)

/-- `RateLimiter.reset(userId)`: `this.userRequests.delete(userId)`. -/
def reset (rl : RateLimiter) (userId : String) : RateLimiter :=
  { rl with userRequests := mapDelete rl.userRequests userId }

/-- `RateLimiter.cleanup()` at instant `now`: delete every entry with
`now >= data.resetTime`. -/
def cleanup (rl : RateLimiter) (now : Nat) : RateLimiter :=
  { rl with userRequests :=
      rl.userRequests.filter (fun p => decide (now < p.2.resetTime)) }

/-! ### The server layer (`server.js` and `createRateLimiterMiddleware`)

A request carries the three caller-supplied identity slots.  A JS value
that may be `undefined` is an `Option String`; `none` is absent
(`undefined`), and `some ""` is present but falsy. -/

/-- The identity-bearing parts of an incoming request:
`req.headers[the x-user-id header]`, `req.query.userId`, `req.body?.userId`. -/
structure Request where
  headerUserId : Option String
  queryUserId : Option String
  bodyUserId : Option String
deriving DecidableEq, Repr

/-- JS truthiness of a string-or-undefined value: `undefined` and the
empty string are falsy. -/
def jsTruthy (v : Option String) : Bool :=
  match v with
  | none => false
  | some s => s ≠ ""

/-- JS `a || b` on string-or-undefined values. -/
def jsOr (a b : Option String) : Option String :=
  if jsTruthy a then a else b

/-- The middleware's key extraction (rateLimiter.js):
`req.headers[x-user-id] || req.query.userId || req.body?.userId || the
string anonymous`. -/
def middlewareUserId (req : Request) : String :=
  (jsOr (jsOr (jsOr req.headerUserId req.queryUserId) req.bodyUserId)
    (some "anonymous")).getD "anonymous"

/-- Key extraction in `GET /api/data` and `GET /api/rate-limit-status`:
`req.headers[x-user-id] || req.query.userId || the string anonymous`. -/
def statusEndpointUserId (req : Request) : String :=
  (jsOr (jsOr req.headerUserId req.queryUserId) (some "anonymous")).getD "anonymous"

/-- Key extraction in the `POST /api/data` handler body:
`req.headers[x-user-id] || req.body?.userId || the string anonymous`. -/
def postDataUserId (req : Request) : String :=
  (jsOr (jsOr req.headerUserId req.bodyUserId) (some "anonymous")).getD "anonymous"

/-- Key extraction in `POST /api/reset-rate-limit`:
`req.headers[x-user-id] || req.body?.userId || req.query.userId`
(no default; the handler answers 400 when the result is falsy). -/
def resetEndpointUserId (req : Request) : Option String :=
  jsOr (jsOr req.headerUserId req.bodyUserId) req.queryUserId

/-- Outcome of the `POST /api/reset-rate-limit` handler. -/
inductive ResetOutcome where
  | badRequest
  | resetFor (userId : String)
deriving DecidableEq, Repr

/-- The `POST /api/reset-rate-limit` handler: 400 if no truthy identity
resolves, else `reset` the resolved key. -/
def resetRateLimitHandler (rl : RateLimiter) (req : Request) :
    ResetOutcome × RateLimiter :=
  let userId := resetEndpointUserId req
  if jsTruthy userId then
    (ResetOutcome.resetFor (userId.getD ""), reset rl (userId.getD ""))
  else
    (ResetOutcome.badRequest, rl)

/-- JS `Math.ceil(a / b)` for integer `a` and positive integer `b`:
`Int` division `/` rounds toward negative infinity for a positive
divisor, so the ceiling is the negated floor of the negation. -/
def mathCeilDiv (a b : Int) : Int := -((-a) / b)

/-- The HTTP 429 body fields derived from the limiter state:
`resetTime` and `retryAfter = Math.ceil((result.resetTime - Date.now()) / 1000)`. -/
structure RejectBody where
  resetTime : Nat
  retryAfter : Int
deriving DecidableEq, Repr

/-- The middleware produced by `createRateLimiterMiddleware`: extracts the
key, consumes one slot via `checkLimit`, and either forwards (no reject
body) or rejects with the 429 body.  Both `Date.now()` reads of the
source are the same instant `now` here. -/
def rateLimiterMiddleware (rl : RateLimiter) (req : Request) (now : Nat) :
    CheckResult × Option RejectBody × RateLimiter :=
  let res := checkLimit rl (middlewareUserId req) now
  if res.1.allowed then
    (res.1, none, res.2)
  else
    (res.1,
     some ⟨res.1.resetTime,
           mathCeilDiv ((res.1.resetTime : Int) - (now : Int)) 1000⟩,
     res.2)

/-- Body of the `GET /api/rate-limit-status` response. -/
structure StatusResponse where
  limit : Nat
  windowMs : Nat
  remaining : Int
  resetTime : Nat
  resetInSeconds : Int
deriving DecidableEq, Repr

/-- The `GET /api/rate-limit-status` handler:
`resetInSeconds = Math.ceil((status.resetTime - Date.now()) / 1000)`. -/
def rateLimitStatusHandler (rl : RateLimiter) (req : Request) (now : Nat) :
    StatusResponse :=
  let status := (getStatus rl (statusEndpointUserId req) now).1
  ⟨rl.maxRequests, rl.windowMs, status.remaining, status.resetTime,
   mathCeilDiv ((status.resetTime : Int) - (now : Int)) 1000⟩

/-- Run `checkLimit` for one key at each instant of `ts` in order,
collecting the results. -/
def runChecks (rl : RateLimiter) (k : String) :
    List Nat → List CheckResult × RateLimiter
  | [] => ([], rl)
  | t :: ts =>
    let step := checkLimit rl k t
    let rest := runChecks step.2 k ts
    (step.1 :: rest.1, rest.2)

/-- Following the spec's words, not the source: the claimed uniform
identity precedence, header over query parameter over body field over
the literal default.  Used to compare the endpoints' actual resolution
order against the spec's claim. -/
def specUniformUserId (req : Request) : String :=
  if jsTruthy req.headerUserId then req.headerUserId.getD ""
  else if jsTruthy req.queryUserId then req.queryUserId.getD ""
  else if jsTruthy req.bodyUserId then req.bodyUserId.getD ""
  else "anonymous"

/-- A single-key operation of the limiter's public interface, used to
state cross-key isolation. -/
inductive Op where
  | check (now : Nat)
  | status (now : Nat)
  | reset
deriving DecidableEq, Repr

/-- Apply one operation for key `k`, keeping only the state. -/
def applyOp (rl : RateLimiter) (k : String) : Op → RateLimiter
  | Op.check now => (checkLimit rl k now).2
  | Op.status now => (getStatus rl k now).2
  | Op.reset => reset rl k

/-- Apply a sequence of operations, all for key `k`. -/
def applyOps (rl : RateLimiter) (k : String) (ops : List Op) : RateLimiter :=
  ops.foldl (fun s o => applyOp s k o) rl

/-! ### Laws of the map operations -/

theorem mapGet_nil (k : String) : mapGet [] k = none := rfl

theorem mapGet_cons_eq (p : String × UserData) (s : List (String × UserData))
    (k : String) (h : p.1 = k) : mapGet (p :: s) k = some p.2 := by
  simp [mapGet, List.find?_cons_of_pos, h]

theorem mapGet_cons_ne (p : String × UserData) (s : List (String × UserData))
    (k : String) (h : p.1 ≠ k) : mapGet (p :: s) k = mapGet s k := by
  simp [mapGet, List.find?_cons_of_neg, h]

theorem mapSet_cons_ne (p : String × UserData) (s : List (String × UserData))
    (k : String) (v : UserData) (h : p.1 ≠ k) :
    mapSet (p :: s) k v = p :: mapSet s k v := by
  have hb : (p.1 == k) = false := by simp [h]
  by_cases ha : s.any (fun q => q.1 == k) = true
  · simp [mapSet, hb, ha, h]
  · simp [mapSet, hb, ha, h]

theorem mapGet_mapSet_self (s : List (String × UserData)) (k : String)
    (v : UserData) : mapGet (mapSet s k v) k = some v := by
  induction s with
  | nil => simp [mapGet, mapSet]
  | cons p s ih =>
    by_cases h : p.1 = k
    · simp only [mapSet, List.any_cons, h, beq_self_eq_true, Bool.true_or, if_pos,
        List.map_cons, if_pos, beq_self_eq_true]
      exact mapGet_cons_eq _ _ _ rfl
    · rw [mapSet_cons_ne p s k v h, mapGet_cons_ne p _ k h]
      exact ih

theorem mapGet_mapReplace_ne (s : List (String × UserData)) (k : String)
    (v : UserData) (k' : String) (h : k' ≠ k) :
    mapGet (s.map (fun q => if q.1 == k then (k, v) else q)) k' = mapGet s k' := by
  induction s with
  | nil => rfl
  | cons p s ih =>
    by_cases hp : p.1 = k
    · simp only [List.map_cons, hp, beq_self_eq_true, if_pos]
      rw [mapGet_cons_ne _ _ _ (Ne.symm h), mapGet_cons_ne p _ _ (by rw [hp]; exact Ne.symm h)]
      exact ih
    · have hb : (p.1 == k) = false := by simp [hp]
      simp only [List.map_cons, hb, Bool.false_eq_true, if_neg, if_false]
      by_cases hp' : p.1 = k'
      · rw [mapGet_cons_eq _ _ _ hp', mapGet_cons_eq _ _ _ hp']
      · rw [mapGet_cons_ne _ _ _ hp', mapGet_cons_ne _ _ _ hp']
        exact ih

theorem mapGet_mapSet_ne (s : List (String × UserData)) (k : String)
    (v : UserData) (k' : String) (h : k' ≠ k) :
    mapGet (mapSet s k v) k' = mapGet s k' := by
  unfold mapSet
  by_cases ha : s.any (fun q => q.1 == k) = true
  · rw [if_pos ha]
    exact mapGet_mapReplace_ne s k v k' h
  · rw [if_neg ha]
    induction s with
    | nil => simp [mapGet, Ne.symm h]
    | cons p s ih =>
      by_cases hp : p.1 = k'
      · rw [List.cons_append, mapGet_cons_eq _ _ _ hp, mapGet_cons_eq _ _ _ hp]
      · rw [List.cons_append, mapGet_cons_ne _ _ _ hp, mapGet_cons_ne _ _ _ hp]
        exact ih (by intro hc; exact ha (by simp_all))

theorem mapGet_mapDelete_self (s : List (String × UserData)) (k : String) :
    mapGet (mapDelete s k) k = none := by
  induction s with
  | nil => rfl
  | cons p s ih =>
    by_cases hp : p.1 = k
    · simp only [mapDelete, List.filter_cons, hp, bne_self_eq_false, Bool.false_eq_true,
        if_neg, if_false]
      exact ih
    · have hb : (p.1 != k) = true := by simp [hp]
      simp only [mapDelete, List.filter_cons, hb, if_pos]
      rw [mapGet_cons_ne _ _ _ hp]
      exact ih

theorem mapGet_mapDelete_ne (s : List (String × UserData)) (k k' : String)
    (h : k' ≠ k) : mapGet (mapDelete s k) k' = mapGet s k' := by
  induction s with
  | nil => rfl
  | cons p s ih =>
    by_cases hp : p.1 = k
    · have hb : (p.1 != k) = false := by simp [hp]
      simp only [mapDelete, List.filter_cons, hb, Bool.false_eq_true, if_neg, if_false]
      rw [mapGet_cons_ne _ _ _ (by rw [hp]; exact Ne.symm h)]
      exact ih
    · have hb : (p.1 != k) = true := by simp [hp]
      simp only [mapDelete, List.filter_cons, hb, if_pos]
      by_cases hp' : p.1 = k'
      · rw [mapGet_cons_eq _ _ _ hp', mapGet_cons_eq _ _ _ hp']
      · rw [mapGet_cons_ne _ _ _ hp', mapGet_cons_ne _ _ _ hp']
        exact ih

theorem mapDelete_absent (s : List (String × UserData)) (k : String)
    (h : mapGet s k = none) : mapDelete s k = s := by
  induction s with
  | nil => rfl
  | cons p s ih =>
    by_cases hp : p.1 = k
    · rw [mapGet_cons_eq _ _ _ hp] at h
      exact absurd h (by simp)
    · rw [mapGet_cons_ne _ _ _ hp] at h
      have hb : (p.1 != k) = true := by simp [hp]
      simp only [mapDelete, List.filter_cons, hb, if_pos]
      rw [show (List.filter (fun p => p.1 != k) s) = mapDelete s k from rfl, ih h]

theorem mapDelete_idem (s : List (String × UserData)) (k : String) :
    mapDelete (mapDelete s k) k = mapDelete s k :=
  mapDelete_absent _ _ (mapGet_mapDelete_self s k)

theorem mapGet_eq_none_of_not_mem_keys (s : List (String × UserData))
    (k : String) (h : ¬ k ∈ s.map Prod.fst) : mapGet s k = none := by
  induction s with
  | nil => rfl
  | cons p s ih =>
    simp only [List.map_cons, List.mem_cons, not_or] at h
    rw [mapGet_cons_ne _ _ _ (fun hc => h.1 (hc ▸ rfl))]
    exact ih h.2

/-- Effect of `cleanup` on a single key, for a store with no duplicate
keys: an expired entry vanishes, an active one is kept verbatim. -/
theorem mapGet_cleanupFilter (s : List (String × UserData)) (now : Nat)
    (k : String) (hnd : (s.map Prod.fst).Nodup) :
    mapGet (s.filter (fun p => decide (now < p.2.resetTime))) k =
      match mapGet s k with
      | none => none
      | some d => if now < d.resetTime then some d else none := by
  induction s with
  | nil => rfl
  | cons p s ih =>
    simp only [List.map_cons, List.nodup_cons] at hnd
    by_cases hp : p.1 = k
    · rw [mapGet_cons_eq _ _ _ hp]
      by_cases hact : now < p.2.resetTime
      · have hd : decide (now < p.2.resetTime) = true := by simp [hact]
        rw [List.filter_cons, hd, if_pos rfl, mapGet_cons_eq _ _ _ hp]
        simp [hact]
      · have hd : decide (now < p.2.resetTime) = false := by simp [hact]
        rw [List.filter_cons, hd, if_neg Bool.false_ne_true]
        have habs : ¬ k ∈ (s.filter (fun p => decide (now < p.2.resetTime))).map Prod.fst := by
          intro hmem
          rcases List.mem_map.mp hmem with ⟨q, hq, hqk⟩
          exact hnd.1 (hp ▸ hqk ▸ List.mem_map_of_mem Prod.fst (List.mem_of_mem_filter hq))
        rw [mapGet_eq_none_of_not_mem_keys _ _ habs]
        simp [hact]
    · rw [mapGet_cons_ne _ _ _ hp]
      by_cases hact : now < p.2.resetTime
      · have hd : decide (now < p.2.resetTime) = true := by simp [hact]
        rw [List.filter_cons, hd, if_pos rfl, mapGet_cons_ne _ _ _ hp]
        exact ih hnd.2
      · have hd : decide (now < p.2.resetTime) = false := by simp [hact]
        rw [List.filter_cons, hd, if_neg Bool.false_ne_true]
        exact ih hnd.2

/-! ### Characterisations of the limiter operations -/

theorem checkLimit_fst (rl : RateLimiter) (k : String) (now : Nat) :
    (checkLimit rl k now).1 =
      match mapGet rl.userRequests k with
      | none => ⟨true, (rl.maxRequests : Int) - 1, now + rl.windowMs⟩
      | some d =>
        if now ≥ d.resetTime then ⟨true, (rl.maxRequests : Int) - 1, now + rl.windowMs⟩
        else if d.count < rl.maxRequests then
          ⟨true, (rl.maxRequests : Int) - (d.count + 1), d.resetTime⟩
        else ⟨false, 0, d.resetTime⟩ := by
  unfold checkLimit
  cases mapGet rl.userRequests k with
  | none => rfl
  | some d =>
    dsimp only
    split
    · rfl
    · split <;> rfl

theorem checkLimit_snd_maxRequests (rl : RateLimiter) (k : String) (now : Nat) :
    (checkLimit rl k now).2.maxRequests = rl.maxRequests := by
  unfold checkLimit
  cases mapGet rl.userRequests k with
  | none => rfl
  | some d =>
    dsimp only
    split
    · rfl
    · split <;> rfl

theorem checkLimit_snd_windowMs (rl : RateLimiter) (k : String) (now : Nat) :
    (checkLimit rl k now).2.windowMs = rl.windowMs := by
  unfold checkLimit
  cases mapGet rl.userRequests k with
  | none => rfl
  | some d =>
    dsimp only
    split
    · rfl
    · split <;> rfl

theorem mapGet_checkLimit_self (rl : RateLimiter) (k : String) (now : Nat) :
    mapGet (checkLimit rl k now).2.userRequests k =
      match mapGet rl.userRequests k with
      | none => some ⟨1, now + rl.windowMs⟩
      | some d =>
        if now ≥ d.resetTime then some ⟨1, now + rl.windowMs⟩
        else if d.count < rl.maxRequests then some ⟨d.count + 1, d.resetTime⟩
        else some d := by
  unfold checkLimit
  cases hm : mapGet rl.userRequests k with
  | none => exact mapGet_mapSet_self _ _ _
  | some d =>
    dsimp only
    split
    · exact mapGet_mapSet_self _ _ _
    · split
      · exact mapGet_mapSet_self _ _ _
      · exact hm

theorem mapGet_checkLimit_ne (rl : RateLimiter) (k : String) (now : Nat)
    (k' : String) (h : k' ≠ k) :
    mapGet (checkLimit rl k now).2.userRequests k' = mapGet rl.userRequests k' := by
  unfold checkLimit
  cases mapGet rl.userRequests k with
  | none => exact mapGet_mapSet_ne _ _ _ _ h
  | some d =>
    dsimp only
    split
    · exact mapGet_mapSet_ne _ _ _ _ h
    · split
      · exact mapGet_mapSet_ne _ _ _ _ h
      · rfl

theorem getStatus_snd (rl : RateLimiter) (k : String) (now : Nat) :
    (getStatus rl k now).2 = rl := by
  unfold getStatus
  cases mapGet rl.userRequests k with
  | none => rfl
  | some d =>
    dsimp only
    split <;> rfl

theorem getStatus_fst (rl : RateLimiter) (k : String) (now : Nat) :
    (getStatus rl k now).1 =
      match mapGet rl.userRequests k with
      | none => ⟨(rl.maxRequests : Int), now + rl.windowMs⟩
      | some d =>
        if now ≥ d.resetTime then ⟨(rl.maxRequests : Int), now + rl.windowMs⟩
        else ⟨(rl.maxRequests : Int) - d.count, d.resetTime⟩ := by
  unfold getStatus
  cases mapGet rl.userRequests k with
  | none => rfl
  | some d =>
    dsimp only
    split <;> rfl

theorem checkLimit_fst_congr (rl1 rl2 : RateLimiter) (k : String) (now : Nat)
    (hmax : rl1.maxRequests = rl2.maxRequests) (hwin : rl1.windowMs = rl2.windowMs)
    (hget : mapGet rl1.userRequests k = mapGet rl2.userRequests k) :
    (checkLimit rl1 k now).1 = (checkLimit rl2 k now).1 := by
  rw [checkLimit_fst, checkLimit_fst, hget, hmax, hwin]

theorem getStatus_fst_congr (rl1 rl2 : RateLimiter) (k : String) (now : Nat)
    (hmax : rl1.maxRequests = rl2.maxRequests) (hwin : rl1.windowMs = rl2.windowMs)
    (hget : mapGet rl1.userRequests k = mapGet rl2.userRequests k) :
    (getStatus rl1 k now).1 = (getStatus rl2 k now).1 := by
  rw [getStatus_fst, getStatus_fst, hget, hmax, hwin]

/-- Repeated `checkLimit` calls against an active record `⟨c, T⟩`, all
before `T`: each call consumes a slot while `count < maxRequests` and is
rejected afterwards, with `remaining` counting down. -/
theorem runChecks_active (m : Nat) (ts : List Nat) :
    ∀ (rl : RateLimiter) (k : String) (c T : Nat),
      rl.maxRequests = m →
      mapGet rl.userRequests k = some ⟨c, T⟩ →
      (∀ t ∈ ts, t < T) →
      (runChecks rl k ts).1 =
        (List.range ts.length).map (fun i =>
          if c + i < m then CheckResult.mk true ((m : Int) - ((c : Int) + (i : Int) + 1)) T
          else CheckResult.mk false 0 T) := by
  induction ts with
  | nil => intro rl k c T _ _ _; rfl
  | cons t ts ih =>
    intro rl k c T hmax hget hts
    have ht : t < T := hts t (List.mem_cons_self t ts)
    have hts' : ∀ u ∈ ts, u < T := fun u hu => hts u (List.mem_cons_of_mem t hu)
    have hstep1 : (checkLimit rl k t).1 =
        if c < m then CheckResult.mk true ((m : Int) - ((c : Int) + 1)) T
        else CheckResult.mk false 0 T := by
      rw [checkLimit_fst, hget]
      dsimp only
      rw [if_neg (by omega), hmax]
    have hstep2 : mapGet (checkLimit rl k t).2.userRequests k =
        if c < m then some (UserData.mk (c + 1) T) else some ⟨c, T⟩ := by
      rw [mapGet_checkLimit_self, hget]
      dsimp only
      rw [if_neg (by omega), hmax]
    by_cases hc : c < m
    · rw [if_pos hc] at hstep1 hstep2
      have hrest := ih (checkLimit rl k t).2 k (c + 1) T
        (by rw [checkLimit_snd_maxRequests, hmax]) hstep2 hts'
      simp only [runChecks]
      rw [hstep1, hrest, List.length_cons, List.range_succ_eq_map, List.map_cons,
        List.map_map]
      congr 1
      · simp [hc]
      · refine List.map_congr_left ?_
        intro i _
        dsimp only [Function.comp]
        have h1 : c + 1 + i < m ↔ c + (i + 1) < m := by omega
        by_cases h2 : c + 1 + i < m
        · rw [if_pos h2, if_pos (h1.mp h2)]
          congr 1
          push_cast
          ring
        · rw [if_neg h2, if_neg (fun hh => h2 (h1.mpr hh))]
    · rw [if_neg hc] at hstep1 hstep2
      have hrest := ih (checkLimit rl k t).2 k c T
        (by rw [checkLimit_snd_maxRequests, hmax]) hstep2 hts'
      simp only [runChecks]
      rw [hstep1, hrest, List.length_cons, List.range_succ_eq_map, List.map_cons,
        List.map_map]
      congr 1
      · simp [hc]
      · refine List.map_congr_left ?_
        intro i _
        dsimp only [Function.comp]
        rw [if_neg (by omega), if_neg (by omega)]

/-! ### Frame and numeric helper lemmas -/

theorem applyOp_maxRequests (rl : RateLimiter) (k : String) (o : Op) :
    (applyOp rl k o).maxRequests = rl.maxRequests := by
  cases o with
  | check now => exact checkLimit_snd_maxRequests _ _ _
  | status now =>
    show ((getStatus rl k now).2).maxRequests = _
    rw [getStatus_snd]
  | reset => rfl

theorem applyOp_windowMs (rl : RateLimiter) (k : String) (o : Op) :
    (applyOp rl k o).windowMs = rl.windowMs := by
  cases o with
  | check now => exact checkLimit_snd_windowMs _ _ _
  | status now =>
    show ((getStatus rl k now).2).windowMs = _
    rw [getStatus_snd]
  | reset => rfl

theorem mapGet_applyOp_ne (rl : RateLimiter) (k : String) (o : Op)
    (k' : String) (h : k' ≠ k) :
    mapGet (applyOp rl k o).userRequests k' = mapGet rl.userRequests k' := by
  cases o with
  | check now => exact mapGet_checkLimit_ne _ _ _ _ h
  | status now =>
    show mapGet ((getStatus rl k now).2).userRequests k' = _
    rw [getStatus_snd]
  | reset => exact mapGet_mapDelete_ne _ _ _ h

theorem applyOps_frame (k k' : String) (h : k' ≠ k) (ops : List Op) :
    ∀ rl : RateLimiter,
      (applyOps rl k ops).maxRequests = rl.maxRequests ∧
      (applyOps rl k ops).windowMs = rl.windowMs ∧
      mapGet (applyOps rl k ops).userRequests k' = mapGet rl.userRequests k' := by
  induction ops with
  | nil => intro rl; exact ⟨rfl, rfl, rfl⟩
  | cons o ops ih =>
    intro rl
    have hrec := ih (applyOp rl k o)
    refine ⟨?_, ?_, ?_⟩
    · rw [show applyOps rl k (o :: ops) = applyOps (applyOp rl k o) k ops from rfl,
        hrec.1, applyOp_maxRequests]
    · rw [show applyOps rl k (o :: ops) = applyOps (applyOp rl k o) k ops from rfl,
        hrec.2.1, applyOp_windowMs]
    · rw [show applyOps rl k (o :: ops) = applyOps (applyOp rl k o) k ops from rfl,
        hrec.2.2, mapGet_applyOp_ne _ _ _ _ h]

theorem mapGet_mem (s : List (String × UserData)) (k : String) (d : UserData)
    (h : mapGet s k = some d) : (k, d) ∈ s := by
  unfold mapGet at h
  cases hf : s.find? (fun p => p.1 == k) with
  | none => rw [hf] at h; cases h
  | some p =>
    rw [hf] at h
    have hp := List.find?_some hf
    have hmem : p ∈ s := List.mem_of_find?_eq_some hf
    have h1 : p.1 = k := by simpa using hp
    have h2 : p.2 = d := by simpa using h
    have : p = (k, d) := Prod.ext h1 h2
    exact this ▸ hmem

theorem mathCeilDiv_nonneg (a : Int) (h : 0 ≤ a) : 0 ≤ mathCeilDiv a 1000 := by
  unfold mathCeilDiv
  have h1 : -a ≤ 0 := by omega
  have h2 : (-a) / 1000 ≤ 0 / 1000 :=
    Int.ediv_le_ediv (by norm_num) h1
  rw [Int.zero_ediv] at h2
  omega

theorem checkLimit_reject_now_lt (rl : RateLimiter) (k : String) (now : Nat)
    (h : ((checkLimit rl k now).1).allowed = false) :
    now < ((checkLimit rl k now).1).resetTime := by
  rw [checkLimit_fst] at h ⊢
  cases hm : mapGet rl.userRequests k with
  | none => rw [hm] at h; simp at h
  | some d =>
    rw [hm] at h
    dsimp only at h ⊢
    by_cases h1 : now ≥ d.resetTime
    · rw [if_pos h1] at h; simp at h
    · rw [if_neg h1] at h ⊢
      by_cases h2 : d.count < rl.maxRequests
      · rw [if_pos h2] at h; simp at h
      · rw [if_neg h2]; exact Nat.lt_of_not_le h1

theorem checkLimit_remaining_nonneg (rl : RateLimiter) (k : String) (now : Nat)
    (hm : 1 ≤ rl.maxRequests) :
    0 ≤ ((checkLimit rl k now).1).remaining := by
  rw [checkLimit_fst]
  cases hmk : mapGet rl.userRequests k with
  | none => dsimp only; omega
  | some d =>
    dsimp only
    by_cases h1 : now ≥ d.resetTime
    · rw [if_pos h1]; dsimp only; omega
    · rw [if_neg h1]
      by_cases h2 : d.count < rl.maxRequests
      · rw [if_pos h2]; dsimp only; omega
      · rw [if_neg h2]

theorem getStatus_resetTime_ge (rl : RateLimiter) (k : String) (now : Nat) :
    now ≤ ((getStatus rl k now).1).resetTime := by
  rw [getStatus_fst]
  cases mapGet rl.userRequests k with
  | none => dsimp only; omega
  | some d =>
    dsimp only
    by_cases h1 : now ≥ d.resetTime
    · rw [if_pos h1]; dsimp only; omega
    · rw [if_neg h1]; dsimp only; omega

theorem getStatus_remaining_nonneg (rl : RateLimiter) (k : String) (now : Nat)
    (hcb : ∀ p ∈ rl.userRequests, p.2.count ≤ rl.maxRequests) :
    0 ≤ ((getStatus rl k now).1).remaining := by
  rw [getStatus_fst]
  cases hmk : mapGet rl.userRequests k with
  | none => dsimp only; omega
  | some d =>
    have hd : d.count ≤ rl.maxRequests := hcb (k, d) (mapGet_mem _ _ _ hmk)
    dsimp only
    by_cases h1 : now ≥ d.resetTime
    · rw [if_pos h1]; dsimp only; omega
    · rw [if_neg h1]; dsimp only; omega

theorem jsOr_pos (a b : Option String) (h : jsTruthy a = true) : jsOr a b = a := by
  simp [jsOr, h]

theorem jsOr_neg (a b : Option String) (h : jsTruthy a = false) : jsOr a b = b := by
  simp [jsOr, h]

theorem getD_eq_of_truthy (a : Option String) (x y : String)
    (h : jsTruthy a = true) : a.getD x = a.getD y := by
  cases a with
  | none => simp [jsTruthy] at h
  | some s => rfl

theorem mem_mapSet (s : List (String × UserData)) (k : String) (v : UserData)
    (p : String × UserData) (h : p ∈ mapSet s k v) : p = (k, v) ∨ p ∈ s := by
  unfold mapSet at h
  by_cases ha : s.any (fun q => q.1 == k) = true
  · rw [if_pos ha] at h
    rcases List.mem_map.mp h with ⟨q, hq, hpq⟩
    by_cases hqk : q.1 = k
    · left
      rw [← hpq]
      simp [hqk]
    · right
      have hbq : (q.1 == k) = false := by simp [hqk]
      rw [← hpq]
      simpa [hbq] using hq
  · rw [if_neg ha] at h
    rcases List.mem_append.mp h with h1 | h1
    · right; exact h1
    · left; simpa using h1

/-- `checkLimit` keeps every stored count at most `maxRequests`, so the
bound used in the numeric claims is an invariant of the reachable
states (fresh records get count 1, increments are guarded by
`count < maxRequests`). -/
theorem checkLimit_preserves_bounds (rl : RateLimiter) (k : String) (now : Nat)
    (hm : 1 ≤ rl.maxRequests)
    (hcb : ∀ p ∈ rl.userRequests, p.2.count ≤ rl.maxRequests) :
    ∀ p ∈ (checkLimit rl k now).2.userRequests, p.2.count ≤ rl.maxRequests := by
  intro p hp
  unfold checkLimit at hp
  cases hmk : mapGet rl.userRequests k with
  | none =>
    rw [hmk] at hp
    dsimp only at hp
    rcases mem_mapSet _ _ _ _ hp with rfl | hmem
    · exact hm
    · exact hcb _ hmem
  | some d =>
    rw [hmk] at hp
    dsimp only at hp
    by_cases h1 : now ≥ d.resetTime
    · rw [if_pos h1] at hp
      dsimp only at hp
      rcases mem_mapSet _ _ _ _ hp with rfl | hmem
      · exact hm
      · exact hcb _ hmem
    · rw [if_neg h1] at hp
      by_cases h2 : d.count < rl.maxRequests
      · rw [if_pos h2] at hp
        dsimp only at hp
        rcases mem_mapSet _ _ _ _ hp with rfl | hmem
        · exact h2
        · exact hcb _ hmem
      · rw [if_neg h2] at hp
        exact hcb _ hp

/-! ### The claims -/

/-- Claim C1: for a key with no record and `maxRequests = m > 0`, calls
within a single window (every later call strictly before the first
call's `windowEnd = t0 + windowMs`) are admitted with `remaining`
counting `m - 1` down to `0` for the first `m` calls, and every further
call is rejected with `remaining = 0`; all results carry the window's
`resetTime`. -/
theorem claim_C1_single_window_quota (rl : RateLimiter) (m w : Nat)
    (k : String) (t0 : Nat) (ts : List Nat)
    (hmax : rl.maxRequests = m) (hwin : rl.windowMs = w) (hm : 0 < m)
    (hget : mapGet rl.userRequests k = none)
    (hts : ∀ t ∈ ts, t < t0 + w) :
    (runChecks rl k (t0 :: ts)).1 =
      (List.range (ts.length + 1)).map (fun i =>
        if i < m then CheckResult.mk true ((m : Int) - ((i : Int) + 1)) (t0 + w)
        else CheckResult.mk false 0 (t0 + w)) := by
  have hstep1 : (checkLimit rl k t0).1 =
      CheckResult.mk true ((m : Int) - 1) (t0 + w) := by
    rw [checkLimit_fst, hget]
    dsimp only
    rw [hmax, hwin]
  have hstep2 : mapGet (checkLimit rl k t0).2.userRequests k =
      some ⟨1, t0 + w⟩ := by
    rw [mapGet_checkLimit_self, hget]
    dsimp only
    rw [hwin]
  have hrest := runChecks_active m ts (checkLimit rl k t0).2 k 1 (t0 + w)
    (by rw [checkLimit_snd_maxRequests, hmax]) hstep2 hts
  simp only [runChecks]
  rw [hstep1, hrest, List.range_succ_eq_map, List.map_cons, List.map_map]
  congr 1
  · simp [hm]
  · refine List.map_congr_left ?_
    intro i _
    dsimp only [Function.comp]
    have h1 : 1 + i < m ↔ i + 1 < m := by omega
    by_cases h2 : 1 + i < m
    · rw [if_pos h2, if_pos (h1.mp h2)]
      congr 1
      push_cast
      ring
    · rw [if_neg h2, if_neg (fun hh => h2 (h1.mpr hh))]

/-- Witness for C1: maxRequests 2, window 10 ms, first call at 0 and
three more calls at 3, 5, 9. -/
theorem claim_C1_single_window_quota_witness :
    0 < 2 ∧ (∀ t ∈ ([3, 5, 9] : List Nat), t < 0 + 10) ∧
    (runChecks ⟨2, 10, []⟩ "user-1" (0 :: [3, 5, 9])).1 =
      (List.range (([3, 5, 9] : List Nat).length + 1)).map (fun i =>
        if i < 2 then CheckResult.mk true ((2 : Int) - ((i : Int) + 1)) (0 + 10)
        else CheckResult.mk false 0 (0 + 10)) :=
  ⟨by decide, by decide,
   claim_C1_single_window_quota ⟨2, 10, []⟩ 2 10 "user-1" 0 [3, 5, 9]
     rfl rfl (by decide) rfl (by decide)⟩

/-- Claim C2: when no record exists for the key or the existing record
has expired (`now ≥ windowEnd`), `checkLimit` answers allowed with
`remaining = maxRequests - 1` and `resetTime = now + windowMs`, and the
store afterwards holds the fresh record `⟨1, now + windowMs⟩` for the
key, regardless of the prior record's count. -/
theorem claim_C2_fresh_window (rl : RateLimiter) (k : String) (now : Nat)
    (h : mapGet rl.userRequests k = none ∨
      ∃ d, mapGet rl.userRequests k = some d ∧ now ≥ d.resetTime) :
    (checkLimit rl k now).1 =
      CheckResult.mk true ((rl.maxRequests : Int) - 1) (now + rl.windowMs) ∧
    mapGet (checkLimit rl k now).2.userRequests k =
      some ⟨1, now + rl.windowMs⟩ := by
  rcases h with hnone | ⟨d, hd, hexp⟩
  · constructor
    · rw [checkLimit_fst, hnone]
    · rw [mapGet_checkLimit_self, hnone]
  · constructor
    · rw [checkLimit_fst, hd]
      dsimp only
      rw [if_pos hexp]
    · rw [mapGet_checkLimit_self, hd]
      dsimp only
      rw [if_pos hexp]

/-- Witness for C2: a saturated record whose window ends exactly at the
call instant is replaced by a fresh one. -/
theorem claim_C2_fresh_window_witness :
    (∃ d, mapGet (RateLimiter.mk 5 60000 [("u", ⟨5, 100⟩)]).userRequests "u" =
        some d ∧ 100 ≥ d.resetTime) ∧
    (checkLimit ⟨5, 60000, [("u", ⟨5, 100⟩)]⟩ "u" 100).1 =
      CheckResult.mk true (((5 : Nat) : Int) - 1) (100 + 60000) ∧
    mapGet (checkLimit ⟨5, 60000, [("u", ⟨5, 100⟩)]⟩ "u" 100).2.userRequests "u" =
      some ⟨1, 100 + 60000⟩ :=
  ⟨⟨⟨5, 100⟩, rfl, by decide⟩,
   claim_C2_fresh_window ⟨5, 60000, [("u", ⟨5, 100⟩)]⟩ "u" 100
     (Or.inr ⟨⟨5, 100⟩, rfl, by decide⟩)⟩

/-- Claim C3: an active saturated record (`now < windowEnd`,
`count = maxRequests`) is rejected with `remaining = 0` and the existing
`windowEnd`, and the limiter state — in particular the record for the
key — is left completely unchanged. -/
theorem claim_C3_saturated_reject (rl : RateLimiter) (k : String) (now : Nat)
    (d : UserData) (hget : mapGet rl.userRequests k = some d)
    (hact : now < d.resetTime) (hsat : d.count = rl.maxRequests) :
    (checkLimit rl k now).1 = CheckResult.mk false 0 d.resetTime ∧
    (checkLimit rl k now).2 = rl := by
  have h1 : ¬ now ≥ d.resetTime := by omega
  have h2 : ¬ d.count < rl.maxRequests := by omega
  constructor
  · rw [checkLimit_fst, hget]
    dsimp only
    rw [if_neg h1, if_neg h2]
  · unfold checkLimit
    rw [hget]
    dsimp only
    rw [if_neg h1, if_neg h2]

/-- Witness for C3: saturated record `⟨5, 100⟩` rejected at instant 50
with the store untouched. -/
theorem claim_C3_saturated_reject_witness :
    mapGet (RateLimiter.mk 5 60000 [("u", ⟨5, 100⟩)]).userRequests "u" =
      some ⟨5, 100⟩ ∧
    (checkLimit ⟨5, 60000, [("u", ⟨5, 100⟩)]⟩ "u" 50).1 =
      CheckResult.mk false 0 100 ∧
    (checkLimit ⟨5, 60000, [("u", ⟨5, 100⟩)]⟩ "u" 50).2 =
      ⟨5, 60000, [("u", ⟨5, 100⟩)]⟩ :=
  ⟨rfl,
   claim_C3_saturated_reject ⟨5, 60000, [("u", ⟨5, 100⟩)]⟩ "u" 50 ⟨5, 100⟩
     rfl (by decide) rfl⟩

/-- Claim C4: `getStatus` never mutates the store (the returned state is
the input state, so no count changes and no record is created); for an
absent or expired key it answers `remaining = maxRequests` and
`resetTime = now + windowMs` without persisting them; and any subsequent
`checkLimit` call behaves exactly as if `getStatus` had not run. -/
theorem claim_C4_peek_is_readonly (rl : RateLimiter) (k : String) (now : Nat) :
    (getStatus rl k now).2 = rl ∧
    ((mapGet rl.userRequests k = none ∨
        ∃ d, mapGet rl.userRequests k = some d ∧ now ≥ d.resetTime) →
      (getStatus rl k now).1 =
        Status.mk (rl.maxRequests : Int) (now + rl.windowMs)) ∧
    (∀ k' now', checkLimit (getStatus rl k now).2 k' now' = checkLimit rl k' now') := by
  refine ⟨getStatus_snd rl k now, ?_, ?_⟩
  · rintro (hnone | ⟨d, hd, hexp⟩)
    · rw [getStatus_fst, hnone]
    · rw [getStatus_fst, hd]
      dsimp only
      rw [if_pos hexp]
  · intro k' now'
    rw [getStatus_snd]

/-- Witness for C4 on a store holding an active record for another key
and none for the queried key. -/
theorem claim_C4_peek_is_readonly_witness :
    (getStatus ⟨5, 60000, [("a", ⟨2, 500⟩)]⟩ "u" 7).2 =
      ⟨5, 60000, [("a", ⟨2, 500⟩)]⟩ ∧
    ((mapGet (RateLimiter.mk 5 60000 [("a", ⟨2, 500⟩)]).userRequests "u" = none ∨
        ∃ d, mapGet (RateLimiter.mk 5 60000 [("a", ⟨2, 500⟩)]).userRequests "u" =
          some d ∧ 7 ≥ d.resetTime) →
      (getStatus ⟨5, 60000, [("a", ⟨2, 500⟩)]⟩ "u" 7).1 =
        Status.mk ((5 : Nat) : Int) (7 + 60000)) ∧
    (∀ k' now', checkLimit (getStatus ⟨5, 60000, [("a", ⟨2, 500⟩)]⟩ "u" 7).2 k' now' =
      checkLimit ⟨5, 60000, [("a", ⟨2, 500⟩)]⟩ k' now') :=
  claim_C4_peek_is_readonly ⟨5, 60000, [("a", ⟨2, 500⟩)]⟩ "u" 7

/-- Claim C5: `reset` removes the key's record; it is idempotent and a
no-op (not an error) on an absent key; and the immediately following
`checkLimit` sees a never-seen key: allowed, `remaining = maxRequests - 1`,
fresh `windowEnd = now + windowMs`. -/
theorem claim_C5_reset_removes_record (rl : RateLimiter) (k : String) :
    mapGet (reset rl k).userRequests k = none ∧
    reset (reset rl k) k = reset rl k ∧
    (mapGet rl.userRequests k = none → reset rl k = rl) ∧
    (∀ now, (checkLimit (reset rl k) k now).1 =
        CheckResult.mk true ((rl.maxRequests : Int) - 1) (now + rl.windowMs) ∧
      mapGet (checkLimit (reset rl k) k now).2.userRequests k =
        some ⟨1, now + rl.windowMs⟩) := by
  have h1 : mapGet (reset rl k).userRequests k = none := mapGet_mapDelete_self _ _
  refine ⟨h1, ?_, ?_, ?_⟩
  · simp only [reset, mapDelete_idem]
  · intro h
    simp only [reset, mapDelete_absent _ _ h]
  · intro now
    constructor
    · rw [checkLimit_fst, h1]
      rfl
    · rw [mapGet_checkLimit_self, h1]
      rfl

/-- Witness for C5: resetting a saturated key and consuming again. -/
theorem claim_C5_reset_removes_record_witness :
    mapGet (reset ⟨5, 60000, [("u", ⟨5, 100⟩)]⟩ "u").userRequests "u" = none ∧
    reset (reset ⟨5, 60000, [("u", ⟨5, 100⟩)]⟩ "u") "u" =
      reset ⟨5, 60000, [("u", ⟨5, 100⟩)]⟩ "u" ∧
    (mapGet (RateLimiter.mk 5 60000 [("u", ⟨5, 100⟩)]).userRequests "u" = none →
      reset ⟨5, 60000, [("u", ⟨5, 100⟩)]⟩ "u" = ⟨5, 60000, [("u", ⟨5, 100⟩)]⟩) ∧
    (∀ now, (checkLimit (reset ⟨5, 60000, [("u", ⟨5, 100⟩)]⟩ "u") "u" now).1 =
        CheckResult.mk true (((5 : Nat) : Int) - 1) (now + 60000) ∧
      mapGet (checkLimit (reset ⟨5, 60000, [("u", ⟨5, 100⟩)]⟩ "u") "u" now).2.userRequests "u" =
        some ⟨1, now + 60000⟩) :=
  claim_C5_reset_removes_record ⟨5, 60000, [("u", ⟨5, 100⟩)]⟩ "u"

/-- Claim C6: `cleanup` removes exactly the entries with
`windowEnd ≤ now`: an expired key afterwards has no record, an active
key keeps its record (count and windowEnd) verbatim, and the
configuration is untouched.  Stated for stores without duplicate keys,
which is every store the limiter builds. -/
theorem claim_C6_cleanup_evicts_expired (rl : RateLimiter) (now : Nat)
    (hnd : (rl.userRequests.map Prod.fst).Nodup) (k : String) :
    (cleanup rl now).maxRequests = rl.maxRequests ∧
    (cleanup rl now).windowMs = rl.windowMs ∧
    mapGet (cleanup rl now).userRequests k =
      (match mapGet rl.userRequests k with
       | none => none
       | some d => if now < d.resetTime then some d else none) :=
  ⟨rfl, rfl, mapGet_cleanupFilter rl.userRequests now k hnd⟩

/-- Witness for C6: at instant 150 the entry expiring at 100 is dropped
while the entry expiring at 200 survives (checked via the equation for
the expired key on a two-entry store). -/
theorem claim_C6_cleanup_evicts_expired_witness :
    (List.map Prod.fst ([("a", UserData.mk 3 100), ("b", ⟨1, 200⟩)])).Nodup ∧
    (cleanup ⟨5, 60000, [("a", ⟨3, 100⟩), ("b", ⟨1, 200⟩)]⟩ 150).maxRequests = 5 ∧
    (cleanup ⟨5, 60000, [("a", ⟨3, 100⟩), ("b", ⟨1, 200⟩)]⟩ 150).windowMs = 60000 ∧
    mapGet (cleanup ⟨5, 60000, [("a", ⟨3, 100⟩), ("b", ⟨1, 200⟩)]⟩ 150).userRequests "a" =
      (match mapGet (RateLimiter.mk 5 60000 [("a", ⟨3, 100⟩), ("b", ⟨1, 200⟩)]).userRequests "a" with
       | none => none
       | some d => if 150 < d.resetTime then some d else none) :=
  ⟨by decide,
   claim_C6_cleanup_evicts_expired ⟨5, 60000, [("a", ⟨3, 100⟩), ("b", ⟨1, 200⟩)]⟩
     150 (by decide) "a"⟩

/-- Claim C7: no sequence of `checkLimit`, `getStatus`, or `reset`
operations on key `k1` changes the record stored for a distinct key
`k2`, nor the result of a subsequent `checkLimit` or `getStatus` on
`k2`. -/
theorem claim_C7_cross_key_isolation (rl : RateLimiter) (k1 k2 : String)
    (h : k1 ≠ k2) (ops : List Op) :
    mapGet (applyOps rl k1 ops).userRequests k2 = mapGet rl.userRequests k2 ∧
    (∀ now, (checkLimit (applyOps rl k1 ops) k2 now).1 = (checkLimit rl k2 now).1) ∧
    (∀ now, (getStatus (applyOps rl k1 ops) k2 now).1 = (getStatus rl k2 now).1) := by
  have hf := applyOps_frame k1 k2 (Ne.symm h) ops rl
  exact ⟨hf.2.2,
    fun now => checkLimit_fst_congr _ _ _ _ hf.1 hf.2.1 hf.2.2,
    fun now => getStatus_fst_congr _ _ _ _ hf.1 hf.2.1 hf.2.2⟩

/-- Witness for C7, following the spec scenario: after one admitted call
for user-a, five operations on user-b (five admissions) leave user-a's
record untouched and its next call still yields `remaining = 3`. -/
theorem claim_C7_cross_key_isolation_witness :
    "user-b" ≠ "user-a" ∧
    (checkLimit (applyOps ⟨5, 60000, [("user-a", ⟨1, 60000⟩)]⟩ "user-b"
        [Op.check 1, Op.check 2, Op.check 3, Op.check 4, Op.check 5])
      "user-a" 6).1 =
      (checkLimit ⟨5, 60000, [("user-a", ⟨1, 60000⟩)]⟩ "user-a" 6).1 ∧
    (checkLimit ⟨5, 60000, [("user-a", ⟨1, 60000⟩)]⟩ "user-a" 6).1 =
      CheckResult.mk true 3 60000 :=
  ⟨by decide,
   (claim_C7_cross_key_isolation ⟨5, 60000, [("user-a", ⟨1, 60000⟩)]⟩
     "user-b" "user-a" (by decide)
     [Op.check 1, Op.check 2, Op.check 3, Op.check 4, Op.check 5]).2.1 6,
   by decide⟩

/-- Claim C8 counterexample: with no identity header, query `q` and body
`b`, the claimed uniform precedence (header, then query, then body)
resolves `q` — the middleware indeed does — but the reset endpoint
resolves the body value `b`, so the reset endpoint does not follow the
header > query > body order. -/
theorem claim_C8_counterexample :
    specUniformUserId ⟨none, some "q", some "b"⟩ = "q" ∧
    middlewareUserId ⟨none, some "q", some "b"⟩ = "q" ∧
    resetEndpointUserId ⟨none, some "q", some "b"⟩ = some "b" ∧
    (resetRateLimitHandler ⟨5, 60000, []⟩ ⟨none, some "q", some "b"⟩).1 =
      ResetOutcome.resetFor "b" ∧
    resetEndpointUserId ⟨none, some "q", some "b"⟩ ≠
      some (specUniformUserId ⟨none, some "q", some "b"⟩) := by
  refine ⟨rfl, rfl, rfl, rfl, ?_⟩
  decide

/-- Claim C8 amended: the rate-limiting middleware resolves identity in
the order header > query > body > the anonymous default, as the spec
says, but the reset endpoint resolves header > body > query (with no
default), and the `POST /api/data` handler's own echo resolution is
header > body > the anonymous default, never consulting the query. -/
theorem claim_C8_amended_precedence (h q b : Option String) :
    middlewareUserId ⟨h, q, b⟩ = specUniformUserId ⟨h, q, b⟩ ∧
    resetEndpointUserId ⟨h, q, b⟩ =
      (if jsTruthy h then h else if jsTruthy b then b else q) ∧
    postDataUserId ⟨h, q, b⟩ =
      (if jsTruthy h then h.getD ""
       else if jsTruthy b then b.getD "" else "anonymous") := by
  refine ⟨?_, ?_, ?_⟩
  · show (jsOr (jsOr (jsOr h q) b) (some "anonymous")).getD "anonymous" = _
    cases hh : jsTruthy h with
    | true =>
      rw [jsOr_pos _ _ hh, jsOr_pos _ _ hh, jsOr_pos _ _ hh]
      simp only [specUniformUserId, hh, if_true]
      exact getD_eq_of_truthy h _ _ hh
    | false =>
      rw [jsOr_neg _ _ hh]
      cases hq2 : jsTruthy q with
      | true =>
        rw [jsOr_pos _ _ hq2, jsOr_pos _ _ hq2]
        simp only [specUniformUserId, hh, hq2, if_true, Bool.false_eq_true, if_false]
        exact getD_eq_of_truthy q _ _ hq2
      | false =>
        rw [jsOr_neg _ _ hq2]
        cases hb2 : jsTruthy b with
        | true =>
          rw [jsOr_pos _ _ hb2]
          simp only [specUniformUserId, hh, hq2, hb2, if_true, Bool.false_eq_true, if_false]
          exact getD_eq_of_truthy b _ _ hb2
        | false =>
          rw [jsOr_neg _ _ hb2]
          simp [specUniformUserId, hh, hq2, hb2]
  · show jsOr (jsOr h b) q = _
    cases hh : jsTruthy h with
    | true =>
      rw [jsOr_pos _ _ hh, jsOr_pos _ _ hh, if_pos rfl]
    | false =>
      rw [jsOr_neg _ _ hh, if_neg (by simp [hh])]
      cases hb2 : jsTruthy b with
      | true => rw [jsOr_pos _ _ hb2, if_pos rfl]
      | false => rw [jsOr_neg _ _ hb2, if_neg (by simp [hb2])]
  · show (jsOr (jsOr h b) (some "anonymous")).getD "anonymous" = _
    cases hh : jsTruthy h with
    | true =>
      rw [jsOr_pos _ _ hh, jsOr_pos _ _ hh, if_pos rfl]
      exact getD_eq_of_truthy h _ _ hh
    | false =>
      rw [jsOr_neg _ _ hh, if_neg (by simp [hh])]
      cases hb2 : jsTruthy b with
      | true =>
        rw [jsOr_pos _ _ hb2, if_pos rfl]
        exact getD_eq_of_truthy b _ _ hb2
      | false =>
        rw [jsOr_neg _ _ hb2, if_neg (by simp [hb2])]
        rfl

/-- Claim C9: for a limiter with a positive maximum and stored counts
within bound (the invariant the limiter maintains), the middleware's 429
`retryAfter` equals `ceil((windowEnd - now) / 1000)` and is never
negative; the status endpoint's `resetInSeconds` likewise; and
`remaining` is never negative in any `checkLimit` or `getStatus` result
(hence in any response). -/
theorem claim_C9_numeric_semantics (rl : RateLimiter) (now : Nat)
    (hm : 1 ≤ rl.maxRequests)
    (hcb : ∀ p ∈ rl.userRequests, p.2.count ≤ rl.maxRequests) :
    (∀ req body, (rateLimiterMiddleware rl req now).2.1 = some body →
        body.retryAfter =
          mathCeilDiv ((body.resetTime : Int) - (now : Int)) 1000 ∧
        0 ≤ body.retryAfter) ∧
    (∀ req, (rateLimitStatusHandler rl req now).resetInSeconds =
          mathCeilDiv (((rateLimitStatusHandler rl req now).resetTime : Int) -
            (now : Int)) 1000 ∧
        0 ≤ (rateLimitStatusHandler rl req now).resetInSeconds ∧
        0 ≤ (rateLimitStatusHandler rl req now).remaining) ∧
    (∀ k, 0 ≤ ((checkLimit rl k now).1).remaining ∧
        0 ≤ ((getStatus rl k now).1).remaining) := by
  refine ⟨?_, ?_, ?_⟩
  · intro req body hbody
    simp only [rateLimiterMiddleware] at hbody
    by_cases hal : ((checkLimit rl (middlewareUserId req) now).1).allowed = true
    · rw [if_pos hal] at hbody
      simp at hbody
    · rw [if_neg hal] at hbody
      dsimp only at hbody
      have hb : RejectBody.mk ((checkLimit rl (middlewareUserId req) now).1).resetTime
          (mathCeilDiv ((((checkLimit rl (middlewareUserId req) now).1).resetTime : Int) -
            (now : Int)) 1000) = body := by
        injection hbody
      have hlt := checkLimit_reject_now_lt rl (middlewareUserId req) now
        (by simpa using hal)
      rw [← hb]
      exact ⟨rfl, mathCeilDiv_nonneg _ (by omega)⟩
  · intro req
    have hge := getStatus_resetTime_ge rl (statusEndpointUserId req) now
    exact ⟨rfl, mathCeilDiv_nonneg _ (by omega),
      getStatus_remaining_nonneg rl (statusEndpointUserId req) now hcb⟩
  · intro k
    exact ⟨checkLimit_remaining_nonneg rl k now hm,
      getStatus_remaining_nonneg rl k now hcb⟩

/-- Witness for C9: a limiter with a saturated record, queried at an
instant inside the window. -/
theorem claim_C9_numeric_semantics_witness :
    1 ≤ (RateLimiter.mk 5 60000 [("u", ⟨5, 100⟩)]).maxRequests ∧
    (∀ p ∈ (RateLimiter.mk 5 60000 [("u", ⟨5, 100⟩)]).userRequests,
      p.2.count ≤ (RateLimiter.mk 5 60000 [("u", ⟨5, 100⟩)]).maxRequests) ∧
    ((∀ req body,
        (rateLimiterMiddleware ⟨5, 60000, [("u", ⟨5, 100⟩)]⟩ req 50).2.1 = some body →
        body.retryAfter =
          mathCeilDiv ((body.resetTime : Int) - ((50 : Nat) : Int)) 1000 ∧
        0 ≤ body.retryAfter) ∧
    (∀ req, (rateLimitStatusHandler ⟨5, 60000, [("u", ⟨5, 100⟩)]⟩ req 50).resetInSeconds =
          mathCeilDiv (((rateLimitStatusHandler ⟨5, 60000, [("u", ⟨5, 100⟩)]⟩ req 50).resetTime : Int) -
            ((50 : Nat) : Int)) 1000 ∧
        0 ≤ (rateLimitStatusHandler ⟨5, 60000, [("u", ⟨5, 100⟩)]⟩ req 50).resetInSeconds ∧
        0 ≤ (rateLimitStatusHandler ⟨5, 60000, [("u", ⟨5, 100⟩)]⟩ req 50).remaining) ∧
    (∀ k, 0 ≤ ((checkLimit ⟨5, 60000, [("u", ⟨5, 100⟩)]⟩ k 50).1).remaining ∧
        0 ≤ ((getStatus ⟨5, 60000, [("u", ⟨5, 100⟩)]⟩ k 50).1).remaining)) :=
  ⟨by decide, by decide,
   claim_C9_numeric_semantics ⟨5, 60000, [("u", ⟨5, 100⟩)]⟩ 50
     (by decide) (by decide)⟩

/-- Claim C10: when header, query and body identities are each absent or
the empty string (all JS-falsy), the middleware resolves the key to the
literal anonymous default, so empty-string identities share the
anonymous quota instead of a distinct empty-string key. -/
theorem claim_C10_empty_identity_is_anonymous (h q b : Option String)
    (hh : h = none ∨ h = some "") (hq : q = none ∨ q = some "")
    (hb : b = none ∨ b = some "") :
    middlewareUserId ⟨h, q, b⟩ = "anonymous" := by
  rcases hh with rfl | rfl <;> rcases hq with rfl | rfl <;>
    rcases hb with rfl | rfl <;> rfl

/-- Witness for C10: an empty-string header and body with an absent
query resolve to the anonymous key. -/
theorem claim_C10_empty_identity_is_anonymous_witness :
    ((some "" : Option String) = none ∨ (some "" : Option String) = some "") ∧
    middlewareUserId ⟨some "", none, some ""⟩ = "anonymous" :=
  ⟨Or.inr rfl,
   claim_C10_empty_identity_is_anonymous (some "") none (some "")
     (Or.inr rfl) (Or.inl rfl) (Or.inr rfl)⟩

end EaglepointRL
